import Mathlib

/-!
Verification development for the muninn adapter layer (Rust sources under
native/muninn/src). The definitions below are a shallow embedding of the
code: the field-catalogue builder (schema.rs), the document marshaller and
writer lifecycle (writer.rs, index.rs), and the query builders and result
projector (searcher.rs). External engine behaviour (tantivy) is passed in
as explicit parameters (lock outcomes, engine call results, ranked match
lists), so every function here is a total, executable Lean function.
-/

namespace Muninn

/-- The field types handled by the adapter (tantivy `FieldType` arms that
writer.rs / searcher.rs match on; `other` covers the catch-all `_` arm:
dates, bytes, json, ...). -/
inductive FieldType where
  | str
  | u64
  | i64
  | f64
  | bool
  | other
deriving DecidableEq, Repr

/-- A catalogue (tantivy schema) as seen by the adapter: field names and
their types, in registration order. -/
abbrev Catalogue := List (String × FieldType)

/-- Embeds `schema.get_field`: resolve a field name in the catalogue. -/
def lookupField : List (String × FieldType) → String → Option FieldType
  | [], _ => none
  | (m, ft) :: rest, n => if m = n then some ft else lookupField rest n

/-- A loosely-typed host (Elixir) value, as far as rustler decoding can
distinguish it: an arbitrary-precision integer, a float, a binary/string,
a boolean atom, or anything else (decodes as none of the above). -/
inductive EValue where
  | int (n : Int)
  | flt (q : Rat)
  | str (s : String)
  | boolean (b : Bool)
  | otherTerm
deriving DecidableEq

/-- Embeds `value.decode::<u64>()`: succeeds exactly on integers in [0, 2^64). -/
def decodeU64 : EValue → Option Nat
  | .int n => if 0 ≤ n ∧ n < 2 ^ 64 then some n.toNat else none
  | _ => none

/-- Embeds `value.decode::<i64>()`: succeeds exactly on integers in [-2^63, 2^63). -/
def decodeI64 : EValue → Option Int
  | .int n => if -(2 ^ 63) ≤ n ∧ n < 2 ^ 63 then some n else none
  | _ => none

/-- Embeds `value.decode::<f64>()`: succeeds exactly on float terms (integer terms
do not decode as doubles). The float payload is carried exactly. -/
def decodeF64 : EValue → Option Rat
  | .flt q => some q
  | _ => none

/-- Embeds `value.decode::<String>()`: succeeds exactly on binaries. -/
def decodeString : EValue → Option String
  | .str s => some s
  | _ => none

/-- Embeds `value.decode::<bool>()`: succeeds exactly on the boolean atoms. -/
def decodeBool : EValue → Option Bool
  | .boolean b => some b
  | _ => none

/-- The representation of an f64 value added to a typed document. The three
constructors record which coercion produced the value; IEEE rounding of the
integer-to-double casts is not interpreted further (no claim depends on it). -/
inductive F64Repr where
  | ofFloat (q : Rat)
  | ofI64 (i : Int)
  | ofU64 (n : Nat)
deriving DecidableEq

/-- A value stored into the typed (tantivy) document by `add_text`,
`add_u64`, `add_i64`, `add_f64` or `add_bool`. -/
inductive TypedValue where
  | text (s : String)
  | u64v (n : Nat)
  | i64v (i : Int)
  | f64v (r : F64Repr)
  | boolv (b : Bool)
deriving DecidableEq

/-- Rust `int_val as i64` on a `u64` value: reinterprets the highest bit. -/
def u64AsI64 (n : Nat) : Int :=
  if n < 2 ^ 63 then (n : Int) else (n : Int) - 2 ^ 64

/-- One field of the marshalling loop of `writer_add_document` (writer.rs lines
31-72): dispatch on the catalogue kind of the field and try the decode
coercions in the order of the code; `none` means the field is skipped. -/
def marshalField (ft : FieldType) (v : EValue) : Option TypedValue :=
  match ft with
  | .str =>
      match decodeString v with
      | some s => some (.text s)
      | none => none
  | .u64 =>
      match decodeU64 v with
      | some n => some (.u64v n)
      | none =>
          match decodeI64 v with
          | some i => if 0 ≤ i then some (.u64v i.toNat) else none
          | none => none
  | .i64 =>
      match decodeI64 v with
      | some i => some (.i64v i)
      | none =>
          match decodeU64 v with
          | some n => some (.i64v (u64AsI64 n))
          | none => none
  | .f64 =>
      match decodeF64 v with
      | some q => some (.f64v (.ofFloat q))
      | none =>
          match decodeI64 v with
          | some i => some (.f64v (.ofI64 i))
          | none =>
              match decodeU64 v with
              | some n => some (.f64v (.ofU64 n))
              | none => none
  | .bool =>
      match decodeBool v with
      | some b => some (.boolv b)
      | none => none
  | .other => none

/-- The whole marshalling loop of `writer_add_document` (writer.rs lines
27-74): unknown field names are skipped, and for known names the field is
added exactly when some coercion accepts the value. -/
def marshalDoc (cat : Catalogue) (doc : List (String × EValue)) :
    List (String × TypedValue) :=
  doc.filterMap fun p =>
    match lookupField cat p.1 with
    | none => none
    | some ft => (marshalField ft p.2).map fun tv => (p.1, tv)

/-- The fixed ingestion memory budget passed to `index.writer(...)`. -/
def ingestionMemoryBudget : Nat := 50000000

/-- Outcome of one `writer_add_document` call: the returned result, the
writer slot after the call, and the typed document handed to
`writer.add_document` (none when that point was never reached). -/
structure AddResult where
  result : Except String Unit
  slot : Option Nat
  handed : Option (List (String × TypedValue))

/-- The tail of `writer_add_document` once a writer `w` is in the slot:
hand the typed document to the engine (writer.rs lines 90-96). -/
def finishAdd (w : Nat) (tdoc : List (String × TypedValue))
    (engineAdd : Except String Unit) : AddResult :=
  match engineAdd with
  | .ok _ => ⟨.ok (), some w, some tdoc⟩
  | .error e => ⟨.error ("Failed to add document: " ++ e), some w, some tdoc⟩

/-- Embeds `writer_add_document` (writer.rs lines 9-97). `docDecode` is the result
of decoding the document term as a map; `indexLockOk` / `writerLockOk` are
the two lock acquisitions; `createWriter` is the engine call
`index.writer(budget)`; `engineAdd` is the engine call `add_document`. -/
def writer_add_document (cat : Catalogue)
    (docDecode : Option (List (String × EValue)))
    (indexLockOk writerLockOk : Bool)
    (slot : Option Nat)
    (createWriter : Nat → Except String Nat)
    (engineAdd : Except String Unit) : AddResult :=
  match docDecode with
  | none => ⟨.error "Failed to decode document: expected a map", slot, none⟩
  | some doc =>
      if indexLockOk = false then
        ⟨.error "Failed to acquire index lock", slot, none⟩
      else
        let tdoc := marshalDoc cat doc
        if writerLockOk = false then
          ⟨.error "Failed to acquire writer lock", slot, none⟩
        else
          match slot with
          | some w => finishAdd w tdoc engineAdd
          | none =>
              match createWriter ingestionMemoryBudget with
              | .error e => ⟨.error ("Failed to create writer: " ++ e), none, none⟩
              | .ok w => finishAdd w tdoc engineAdd

/-- Outcome of a commit/rollback call: the returned result, the writer slot
after the call, and whether the engine was invoked at all. -/
structure LifecycleResult where
  result : Except String Unit
  slot : Option Nat
  engineInvoked : Bool

/-- Embeds `writer_commit` (writer.rs lines 100-113). -/
def writer_commit (writerLockOk : Bool) (slot : Option Nat)
    (engineCommit : Except String Unit) : LifecycleResult :=
  if writerLockOk = false then
    ⟨.error "Failed to acquire writer lock", slot, false⟩
  else
    match slot with
    | none => ⟨.ok (), none, false⟩
    | some w =>
        match engineCommit with
        | .ok _ => ⟨.ok (), some w, true⟩
        | .error e => ⟨.error ("Failed to commit: " ++ e), some w, true⟩

/-- Embeds `writer_rollback` (writer.rs lines 116-129). -/
def writer_rollback (writerLockOk : Bool) (slot : Option Nat)
    (engineRollback : Except String Unit) : LifecycleResult :=
  if writerLockOk = false then
    ⟨.error "Failed to acquire writer lock", slot, false⟩
  else
    match slot with
    | none => ⟨.ok (), none, false⟩
    | some w =>
        match engineRollback with
        | .ok _ => ⟨.ok (), some w, true⟩
        | .error e => ⟨.error ("Failed to rollback: " ++ e), some w, true⟩

/-- The writer slot of a freshly created/opened `IndexResource`
(index.rs lines 31-34 and 44-47): always `None`. -/
def initialWriterSlot : Option Nat := none

/-! ### Field catalogue builder (schema.rs) -/

/-- A field specification from the host: (name, kind string, stored, indexed). -/
structure FieldDef where
  name : String
  kind : String
  stored : Bool
  indexed : Bool
deriving DecidableEq, Repr

/-- A field registered on the schema builder: name, resolved type, and the
stored/indexed flags that were applied to its options. -/
structure FieldEntry where
  name : String
  ftype : FieldType
  stored : Bool
  indexed : Bool
deriving DecidableEq, Repr

/-- The kind-string dispatch of `build_schema` (schema.rs lines 20-73):
the five accepted strings and the field each registers; `none` for any
other string. -/
def kindToFieldType : String → Option FieldType
  | "text" => some .str
  | "u64" => some .u64
  | "i64" => some .i64
  | "f64" => some .f64
  | "bool" => some .bool
  | _ => none

/-- The entry `build_schema` registers for one valid specification. -/
def entryOf (d : FieldDef) (ft : FieldType) : FieldEntry :=
  ⟨d.name, ft, d.stored, d.indexed⟩

/-- Embeds `build_schema` (schema.rs lines 16-78): walk the specifications in
order, registering each; fail on the first unsupported kind string with a
message carrying that string. -/
def build_schema : List FieldDef → Except String (List FieldEntry)
  | [] => .ok []
  | d :: rest =>
      match kindToFieldType d.kind with
      | none => .error ("Unsupported field type: " ++ d.kind)
      | some ft =>
          match build_schema rest with
          | .error e => .error e
          | .ok es => .ok (entryOf d ft :: es)

/-- The kind string of the first specification whose kind is unsupported,
if any. -/
def firstInvalidKind : List FieldDef → Option String
  | [] => none
  | d :: rest =>
      match kindToFieldType d.kind with
      | none => some d.kind
      | some _ => firstInvalidKind rest

/-- The entries registered when every kind is valid (the successful image
of `build_schema`). -/
def entriesOf : List FieldDef → List FieldEntry
  | [] => []
  | d :: rest =>
      match kindToFieldType d.kind with
      | none => entriesOf rest
      | some ft => entryOf d ft :: entriesOf rest

/-! ### Query builders and result projector (searcher.rs) -/

/-- A stored value retrieved from a tantivy document (`OwnedValue`); `other`
covers the arms the projector skips (dates, bytes, ...). -/
inductive OwnedValue where
  | str (s : String)
  | u64 (n : Nat)
  | i64 (i : Int)
  | f64 (q : Rat)
  | boolv (b : Bool)
  | other
deriving DecidableEq

/-- A host-side value in a projected hit document, as encoded by
`document_to_hit_map`: both integer kinds encode as host integers. -/
inductive HitVal where
  | str (s : String)
  | int (n : Int)
  | flt (q : Rat)
  | boolean (b : Bool)
deriving DecidableEq

/-- The per-value conversion of `document_to_hit_map` (searcher.rs lines
355-372): the five supported arms, `none` for the skipped catch-all. -/
def convertOwned : OwnedValue → Option HitVal
  | .str s => some (.str s)
  | .u64 n => some (.int n)
  | .i64 i => some (.int i)
  | .f64 q => some (.flt q)
  | .boolv b => some (.boolean b)
  | .other => none

/-- A stored document: the list of stored values per field name
(`doc.get_all`). -/
abbrev StoredDoc := String → List OwnedValue

/-- Embeds `document_to_hit_map` (searcher.rs lines 337-387): iterate the
catalogue fields in order; for a field whose value list is non-empty take
only the first value and convert it; skip empty value lists and
unsupported first values. -/
def document_to_hit_map (cat : Catalogue) (doc : StoredDoc) :
    List (String × HitVal) :=
  cat.filterMap fun p =>
    match (doc p.1).head? with
    | none => none
    | some v =>
        match convertOwned v with
        | none => none
        | some hv => some (p.1, hv)

/-- A built query: exact term, engine-parsed (opaque handle), or regex. -/
inductive Query where
  | term (field : String) (text : String)
  | parsed (id : Nat)
  | regex (field : String) (pattern : String)
deriving DecidableEq

/-- One ranked hit in a search result. `snippets` is `none` for the search
operations that do not produce snippets. -/
structure Hit where
  score : Int
  doc : List (String × HitVal)
  snippets : Option (List (String × String))

/-- The structured result returned by every search operation. -/
structure SearchResult where
  total_hits : Nat
  hits : List Hit

/-- The searcher together with the engine behaviour it delegates to:
`runQuery` is `searcher.search` returning the full engine-ranked
(score, doc-address) list before the top-k bound; `docOf` fetches a stored
document by address; `parseQ` is the engine query parser; `regexCompile`
is `RegexQuery::from_pattern`; `snipCreate`/`snippetOf` are snippet
generator creation and rendering. -/
structure SearcherModel where
  cat : Catalogue
  runQuery : Query → Except String (List (Int × Nat))
  docOf : Nat → StoredDoc
  parseQ : String → Except String Query
  regexCompile : String → Except String Unit
  snipCreate : Query → String → Except String Unit
  snippetOf : Query → String → Nat → Nat → String

/-- The shared tail of the non-snippet searches (searcher.rs lines 70-99
and analogues): bound the ranked matches by `limit`, set `total_hits` to
the number of bounded matches, and project each hit. -/
def collectHits (s : SearcherModel) (q : Query) (limit : Nat) :
    Except String SearchResult :=
  match s.runQuery q with
  | .error e => .error ("Search failed: " ++ e)
  | .ok ms =>
      let top := ms.take limit
      .ok ⟨top.length,
        top.map fun p => ⟨p.1, document_to_hit_map s.cat (s.docOf p.2), none⟩⟩

/-- Embeds `searcher_search_term` (searcher.rs lines 37-100): resolve the field,
require it to be a text field, build an exact term query over the
unanalyzed value, and execute. -/
def searcher_search_term (s : SearcherModel) (f v : String) (limit : Nat) :
    Except String SearchResult :=
  match lookupField s.cat f with
  | none => .error ("Field \x27" ++ f ++ "\x27 not found in schema")
  | some ft =>
      match ft with
      | .str => collectHits s (Query.term f v) limit
      | _ => .error ("Field \x27" ++ f ++
          "\x27 is not a text field. Only text fields are currently supported for term queries.")

/-- The default-field resolution loop of the parsed searches (searcher.rs
lines 115-121): error on the first unresolvable name. -/
def resolveDefaultFields (cat : Catalogue) : List String → Except String (List String)
  | [] => .ok []
  | f :: rest =>
      match lookupField cat f with
      | none => .error ("Field \x27" ++ f ++ "\x27 not found in schema")
      | some _ =>
          match resolveDefaultFields cat rest with
          | .error e => .error e
          | .ok fs => .ok (f :: fs)

/-- Embeds `searcher_search_query` (searcher.rs lines 104-166): resolve the
default fields, require at least one, parse the query string with the
engine parser, and execute. -/
def searcher_search_query (s : SearcherModel) (qs : String)
    (defaultFields : List String) (limit : Nat) : Except String SearchResult :=
  match resolveDefaultFields s.cat defaultFields with
  | .error e => .error e
  | .ok fields =>
      if fields.isEmpty then
        .error "At least one default field must be provided"
      else
        match s.parseQ qs with
        | .error e => .error ("Failed to parse query \x27" ++ qs ++ "\x27: " ++ e)
        | .ok q => collectHits s q limit

/-- The snippet-generator loop of `searcher_search_with_snippets`
(searcher.rs lines 209-226): an unresolvable snippet field is an error,
a non-text snippet field is silently skipped, and generator creation can
fail; returns the fields that received a generator. -/
def buildSnippetGens (s : SearcherModel) (q : Query) :
    List String → Except String (List String)
  | [] => .ok []
  | f :: rest =>
      match lookupField s.cat f with
      | none => .error ("Snippet field \x27" ++ f ++ "\x27 not found in schema")
      | some .str =>
          match s.snipCreate q f with
          | .error e => .error ("Failed to create snippet generator: " ++ e)
          | .ok _ =>
              match buildSnippetGens s q rest with
              | .error e => .error e
              | .ok fs => .ok (f :: fs)
      | some _ => buildSnippetGens s q rest

/-- Embeds `searcher_search_with_snippets` (searcher.rs lines 170-260): like the
parsed search, but after executing the query it builds one snippet
generator per requested text snippet field and attaches the rendered
snippet of each hit document. -/
def searcher_search_with_snippets (s : SearcherModel) (qs : String)
    (defaultFields snippetFields : List String)
    (maxSnippetChars limit : Nat) : Except String SearchResult :=
  match resolveDefaultFields s.cat defaultFields with
  | .error e => .error e
  | .ok fields =>
      if fields.isEmpty then
        .error "At least one default field must be provided"
      else
        match s.parseQ qs with
        | .error e => .error ("Failed to parse query \x27" ++ qs ++ "\x27: " ++ e)
        | .ok q =>
            match s.runQuery q with
            | .error e => .error ("Search failed: " ++ e)
            | .ok ms =>
                let top := ms.take limit
                match buildSnippetGens s q snippetFields with
                | .error e => .error e
                | .ok gens =>
                    .ok ⟨top.length,
                      top.map fun p =>
                        ⟨p.1, document_to_hit_map s.cat (s.docOf p.2),
                          some (gens.map fun f =>
                            (f, s.snippetOf q f maxSnippetChars p.2))⟩⟩

/-- The metacharacter set escaped by `regex::escape` (the regex-syntax
`is_meta_character`). -/
def isRegexMeta (c : Char) : Bool :=
  c = Char.ofNat 92 ∨ c = '.' ∨ c = '+' ∨ c = '*' ∨ c = '?' ∨ c = '(' ∨
    c = ')' ∨ c = '|' ∨ c = '[' ∨ c = ']' ∨ c = Char.ofNat 123 ∨
    c = Char.ofNat 125 ∨ c = '^' ∨ c = '$' ∨ c = '#' ∨ c = '&' ∨
    c = '-' ∨ c = '~'

/-- Embeds `regex::escape`: prepend a backslash to every regex metacharacter. -/
def regexEscape (s : String) : String :=
  String.mk (s.data.foldr
    (fun c acc => if isRegexMeta c then Char.ofNat 92 :: c :: acc else c :: acc)
    [])

/-- Embeds `str::to_lowercase` restricted to the ASCII range (the full Unicode
case mapping coincides with this on ASCII input). -/
def lowerAscii (s : String) : String :=
  String.mk (s.data.map Char.toLower)

/-- The regex pattern built by `searcher_search_prefix` (searcher.rs lines
295-298): the lower-cased, regex-escaped prefix followed by zero or more
alphanumeric characters. -/
def prefixPattern (pre : String) : String :=
  regexEscape (lowerAscii pre) ++ "[a-z0-9]*"

/-- Embeds `searcher_search_prefix` (searcher.rs lines 264-334): resolve the
field, require text kind, reject an empty prefix, then compile and execute
the prefix regex query. -/
def searcher_search_prefix (s : SearcherModel) (fieldName pre : String)
    (limit : Nat) : Except String SearchResult :=
  match lookupField s.cat fieldName with
  | none => .error ("Field \x27" ++ fieldName ++ "\x27 not found in schema")
  | some ft =>
      match ft with
      | .str =>
          if pre = "" then .error "Prefix cannot be empty"
          else
            let pattern := prefixPattern pre
            match s.regexCompile pattern with
            | .error e => .error ("Failed to create prefix query: " ++ e)
            | .ok _ => collectHits s (Query.regex fieldName pattern) limit
      | _ => .error ("Field \x27" ++ fieldName ++
          "\x27 is not a text field. Prefix search only works on text fields.")

/-- A small concrete catalogue used to instantiate the theorems below
(the concrete scenario of the spec: a stored+indexed text field and a
stored+indexed u64 field). -/
def sampleCat : Catalogue := [("title", .str), ("views", .u64)]

/-- A concrete searcher over `sampleCat` with a trivially empty engine. -/
def sampleModel : SearcherModel where
  cat := sampleCat
  runQuery := fun _ => .ok []
  docOf := fun _ => fun _ => []
  parseQ := fun _ => .ok (.parsed 0)
  regexCompile := fun _ => .ok ()
  snipCreate := fun _ _ => .ok ()
  snippetOf := fun _ _ _ _ => ""

/-! ## Theorems -/

/-- Behaviour of `marshalField` on an `u64` field and an integer value. -/
theorem marshalField_u64_int (n : Int) :
    marshalField .u64 (.int n) =
      if 0 ≤ n ∧ n < 2 ^ 64 then some (.u64v n.toNat) else none := by
  simp only [marshalField, decodeU64, decodeI64]
  by_cases h1 : 0 ≤ n ∧ n < 2 ^ 64
  · simp only [if_pos h1]
  · simp only [if_neg h1]
    by_cases h2 : -(2 ^ 63) ≤ n ∧ n < 2 ^ 63
    · simp only [if_pos h2]
      exact if_neg (by omega)
    · simp only [if_neg h2]

/-- Behaviour of `marshalField` on an `i64` field and an integer value. -/
theorem marshalField_i64_int (n : Int) :
    marshalField .i64 (.int n) =
      if -(2 ^ 63) ≤ n ∧ n < 2 ^ 63 then some (.i64v n)
      else if 2 ^ 63 ≤ n ∧ n < 2 ^ 64 then some (.i64v (n - 2 ^ 64))
      else none := by
  simp only [marshalField, decodeI64, decodeU64]
  by_cases h1 : -(2 ^ 63) ≤ n ∧ n < 2 ^ 63
  · simp only [if_pos h1]
  · simp only [if_neg h1]
    by_cases h2 : 2 ^ 63 ≤ n ∧ n < 2 ^ 64
    · have h3 : 0 ≤ n ∧ n < 2 ^ 64 := by omega
      have h4 : ¬ ((n.toNat : Nat) < 2 ^ 63) := by omega
      simp only [if_pos h3, u64AsI64, if_neg h4, if_pos h2,
        Int.toNat_of_nonneg h3.1]
    · have h3 : ¬ (0 ≤ n ∧ n < 2 ^ 64) := by omega
      simp only [if_neg h3, if_neg h2]

/-- C1: on an UnsignedInt field an integer value is accepted exactly when
it is a representable unsigned value; every negative value makes the field
be omitted (no wrap to a large unsigned value). On a SignedInt field a
representable signed value is accepted directly, and an unsigned-only
value (in [2^63, 2^64)) is coerced by reinterpreting the highest bit,
yielding a negative number, without error. -/
theorem claim_C1 (n : Int) :
    (marshalField .u64 (.int n) =
      if 0 ≤ n ∧ n < 2 ^ 64 then some (.u64v n.toNat) else none)
    ∧ (n < 0 → marshalField .u64 (.int n) = none)
    ∧ (marshalField .i64 (.int n) =
      if -(2 ^ 63) ≤ n ∧ n < 2 ^ 63 then some (.i64v n)
      else if 2 ^ 63 ≤ n ∧ n < 2 ^ 64 then some (.i64v (n - 2 ^ 64))
      else none)
    ∧ (2 ^ 63 ≤ n ∧ n < 2 ^ 64 →
        marshalField .i64 (.int n) = some (.i64v (n - 2 ^ 64)) ∧ n - 2 ^ 64 < 0) := by
  refine ⟨marshalField_u64_int n, ?_, marshalField_i64_int n, ?_⟩
  · intro hn
    rw [marshalField_u64_int n, if_neg]
    omega
  · intro h
    constructor
    · rw [marshalField_i64_int n, if_neg (by omega), if_pos h]
    · omega

/-- Concrete instance of `claim_C1`: -5 is refused on an u64 field, and
2^63 on an i64 field becomes the negative value 2^63 - 2^64. -/
theorem claim_C1_witness :
    marshalField .u64 (.int (-5)) = none
    ∧ marshalField .i64 (.int (2 ^ 63)) = some (.i64v (2 ^ 63 - 2 ^ 64))
    ∧ ((2 ^ 63 : Int) - 2 ^ 64 < 0) := by
  refine ⟨(claim_C1 (-5)).2.1 (by norm_num), ?_, ?_⟩
  · exact ((claim_C1 (2 ^ 63)).2.2.2 (by norm_num)).1
  · exact ((claim_C1 (2 ^ 63)).2.2.2 (by norm_num)).2

/-- C3: catalogue build succeeds exactly when every kind string is one of
the five supported ones, registering each field in order with its
stored/indexed flags; otherwise it fails with a message carrying the first
offending kind string, and only an error (no partial catalogue) is
returned. -/
theorem claim_C3 (specs : List FieldDef) :
    (firstInvalidKind specs = none →
      build_schema specs = .ok (entriesOf specs)
      ∧ (entriesOf specs).map (fun e => (e.name, e.stored, e.indexed)) =
          specs.map (fun d => (d.name, d.stored, d.indexed)))
    ∧ ∀ k, firstInvalidKind specs = some k →
        kindToFieldType k = none
        ∧ build_schema specs = .error ("Unsupported field type: " ++ k) := by
  induction specs with
  | nil => exact ⟨fun _ => ⟨rfl, rfl⟩, fun k hk => by simp [firstInvalidKind] at hk⟩
  | cons d rest ih =>
      rcases hk : kindToFieldType d.kind with _ | ft
      · refine ⟨fun h => ?_, fun k h => ?_⟩
        · simp [firstInvalidKind, hk] at h
        · simp only [firstInvalidKind, hk] at h
          cases h
          exact ⟨hk, by simp [build_schema, hk]⟩
      · refine ⟨fun h => ?_, fun k h => ?_⟩
        · simp only [firstInvalidKind, hk] at h
          obtain ⟨h1, h2⟩ := ih.1 h
          refine ⟨?_, ?_⟩
          · simp [build_schema, hk, entriesOf, h1]
          · simp [entriesOf, hk, entryOf, h2]
        · simp only [firstInvalidKind, hk] at h
          obtain ⟨h1, h2⟩ := ih.2 k h
          exact ⟨h1, by simp [build_schema, hk, h2]⟩

/-- Concrete instance of `claim_C3`: a two-field catalogue builds in
order, and a catalogue containing kind "date" fails carrying "date". -/
theorem claim_C3_witness :
    build_schema [⟨"title", "text", true, true⟩, ⟨"views", "u64", true, true⟩] =
      .ok [⟨"title", .str, true, true⟩, ⟨"views", .u64, true, true⟩]
    ∧ build_schema [⟨"title", "text", true, true⟩, ⟨"when", "date", true, false⟩] =
      .error "Unsupported field type: date" := by
  constructor
  · exact ((claim_C3 [⟨"title", "text", true, true⟩, ⟨"views", "u64", true, true⟩]).1
      (by decide)).1
  · exact ((claim_C3 [⟨"title", "text", true, true⟩, ⟨"when", "date", true, false⟩]).2
      "date" (by decide)).2

/-- C5: commit and rollback on a handle whose writer slot is still empty
succeed without invoking the engine (given the writer lock is acquired). -/
theorem claim_C5 (engineCommit engineRollback : Except String Unit) :
    writer_commit true none engineCommit = ⟨.ok (), none, false⟩
    ∧ writer_rollback true none engineRollback = ⟨.ok (), none, false⟩ :=
  ⟨rfl, rfl⟩

/-- The tail `finishAdd` returns the same result whatever typed document it hands
to the engine. -/
theorem finishAdd_result_indep (w : Nat) (t t' : List (String × TypedValue))
    (ea : Except String Unit) :
    (finishAdd w t ea).result = (finishAdd w t' ea).result := by
  cases ea <;> rfl

/-- The tail `finishAdd` never changes the writer slot. -/
theorem finishAdd_slot (w : Nat) (t : List (String × TypedValue))
    (ea : Except String Unit) : (finishAdd w t ea).slot = some w := by
  cases ea <;> rfl

/-- A pending field whose name is unknown to the catalogue contributes
nothing to the marshalled document. -/
theorem marshalDoc_unknown_skipped (cat : Catalogue) (doc : List (String × EValue))
    (n : String) (tv : TypedValue) (h : lookupField cat n = none) :
    (n, tv) ∉ marshalDoc cat doc := by
  intro hmem
  rw [marshalDoc, List.mem_filterMap] at hmem
  obtain ⟨p, _, hfp⟩ := hmem
  rcases hl : lookupField cat p.1 with _ | ft
  · rw [hl] at hfp
    simp at hfp
  · rw [hl] at hfp
    obtain ⟨tv', _, heq⟩ := Option.map_eq_some'.mp hfp
    injection heq with e1 _
    rw [e1] at hl
    rw [h] at hl
    cases hl

/-- A pending field whose value no coercion of its kind accepts is simply
dropped: the marshalled document is the one of the remaining fields. -/
theorem marshalDoc_skip (cat : Catalogue) (d1 d2 : List (String × EValue))
    (m : String) (v : EValue)
    (h : ∀ ft, lookupField cat m = some ft → marshalField ft v = none) :
    marshalDoc cat (d1 ++ (m, v) :: d2) = marshalDoc cat (d1 ++ d2) := by
  simp only [marshalDoc, List.filterMap_append, List.filterMap_cons]
  rcases hl : lookupField cat m with _ | ft
  · simp [hl]
  · simp [hl, h ft hl]

/-- The result of `writer_add_document` does not depend on the content of
the (successfully decoded) document. -/
theorem writer_add_document_result_indep (cat : Catalogue)
    (doc doc' : List (String × EValue)) (il wl : Bool) (slot : Option Nat)
    (cw : Nat → Except String Nat) (ea : Except String Unit) :
    (writer_add_document cat (some doc) il wl slot cw ea).result =
      (writer_add_document cat (some doc') il wl slot cw ea).result := by
  cases il with
  | false => rfl
  | true =>
      cases wl with
      | false => rfl
      | true =>
          cases slot with
          | some w => exact finishAdd_result_indep w _ _ ea
          | none =>
              rcases hcw : cw ingestionMemoryBudget with e | w
              · simp [writer_add_document, hcw]
              · simp only [writer_add_document, hcw]
                exact finishAdd_result_indep w _ _ ea

/-- C2: a pending field with an unknown name is silently skipped; a known
field whose value no coercion accepts is omitted while the remaining
fields are still marshalled; neither case makes add error — its result is
the same as for an empty document, and on the success path the full
marshalled document is handed to the writer. -/
theorem claim_C2 (cat : Catalogue) (doc : List (String × EValue)) :
    (∀ n tv, lookupField cat n = none → (n, tv) ∉ marshalDoc cat doc)
    ∧ (∀ d1 d2 m v, doc = d1 ++ (m, v) :: d2 →
        (∀ ft, lookupField cat m = some ft → marshalField ft v = none) →
        marshalDoc cat doc = marshalDoc cat (d1 ++ d2))
    ∧ (∀ il wl slot cw ea,
        (writer_add_document cat (some doc) il wl slot cw ea).result =
          (writer_add_document cat (some []) il wl slot cw ea).result)
    ∧ (∀ w cw, writer_add_document cat (some doc) true true (some w) cw (.ok ()) =
        ⟨.ok (), some w, some (marshalDoc cat doc)⟩) := by
  refine ⟨fun n tv h => marshalDoc_unknown_skipped cat doc n tv h,
    fun d1 d2 m v hdoc hskip => ?_,
    fun il wl slot cw ea => writer_add_document_result_indep cat doc [] il wl slot cw ea,
    fun w cw => rfl⟩
  rw [hdoc]
  exact marshalDoc_skip cat d1 d2 m v hskip

/-- Concrete instance of `claim_C2` on `sampleCat`: an unknown name and an
u64 field given a string are both skipped, and add succeeds handing over
the remaining marshalled field. -/
theorem claim_C2_witness :
    ("missing", TypedValue.u64v 1) ∉
      marshalDoc sampleCat [("missing", .int 1), ("views", .str "x"), ("title", .str "hi")]
    ∧ marshalDoc sampleCat [("missing", .int 1), ("views", .str "x"), ("title", .str "hi")] =
        marshalDoc sampleCat [("missing", .int 1), ("title", .str "hi")]
    ∧ writer_add_document sampleCat
        (some [("missing", .int 1), ("views", .str "x"), ("title", .str "hi")])
        true true (some 0) (fun _ => .ok 0) (.ok ()) =
      ⟨.ok (), some 0,
        some (marshalDoc sampleCat
          [("missing", .int 1), ("views", .str "x"), ("title", .str "hi")])⟩ := by
  have h := claim_C2 sampleCat [("missing", .int 1), ("views", .str "x"), ("title", .str "hi")]
  refine ⟨h.1 "missing" (TypedValue.u64v 1) (by decide), ?_, h.2.2.2 0 (fun _ => .ok 0)⟩
  refine h.2.1 [("missing", .int 1)] [("title", .str "hi")] "views" (.str "x") rfl ?_
  intro ft hft
  rw [show lookupField sampleCat "views" = some FieldType.u64 from rfl] at hft
  injection hft with hft
  subst hft
  rfl

/-- C4: the writer slot starts empty, an occupied slot is never replaced
by add, commit or rollback, writer-creation failure surfaces as an error
and leaves the slot empty, and a successful creation (at the fixed
ingestion memory budget) fills the slot on the first add. -/
theorem claim_C4 :
    initialWriterSlot = none
    ∧ (∀ cat dd il wl w cw ea,
        (writer_add_document cat dd il wl (some w) cw ea).slot = some w)
    ∧ (∀ wl slot ec, (writer_commit wl slot ec).slot = slot)
    ∧ (∀ wl slot er, (writer_rollback wl slot er).slot = slot)
    ∧ (∀ cat doc cw ea e, cw ingestionMemoryBudget = .error e →
        writer_add_document cat (some doc) true true none cw ea =
          ⟨.error ("Failed to create writer: " ++ e), none, none⟩)
    ∧ (∀ cat doc cw ea w, cw ingestionMemoryBudget = .ok w →
        (writer_add_document cat (some doc) true true none cw ea).slot = some w) := by
  refine ⟨rfl, ?_, ?_, ?_, ?_, ?_⟩
  · intro cat dd il wl w cw ea
    cases dd with
    | none => rfl
    | some doc =>
        cases il with
        | false => rfl
        | true =>
            cases wl with
            | false => rfl
            | true => exact finishAdd_slot w _ ea
  · intro wl slot ec
    cases wl with
    | false => rfl
    | true =>
        cases slot with
        | none => rfl
        | some w => cases ec <;> rfl
  · intro wl slot er
    cases wl with
    | false => rfl
    | true =>
        cases slot with
        | none => rfl
        | some w => cases er <;> rfl
  · intro cat doc cw ea e h
    simp [writer_add_document, h]
  · intro cat doc cw ea w h
    simp only [writer_add_document, h]
    exact finishAdd_slot w _ ea

/-- Concrete instance of `claim_C4`: creation failure leaves the slot
empty; successful creation fills it. -/
theorem claim_C4_witness :
    writer_add_document sampleCat (some []) true true none
        (fun _ => .error "boom") (.ok ()) =
      ⟨.error "Failed to create writer: boom", none, none⟩
    ∧ (writer_add_document sampleCat (some []) true true none
        (fun _ => .ok 7) (.ok ())).slot = some 7 := by
  exact ⟨(claim_C4.2.2.2.2.1 sampleCat [] (fun _ => .error "boom") (.ok ()) "boom" rfl),
    (claim_C4.2.2.2.2.2 sampleCat [] (fun _ => .ok 7) (.ok ()) 7 rfl)⟩

/-- C10: once the document term decodes as a map, the marshalled document
is always handed to the writer on the success path — even when every
field was skipped the (empty) typed document is still added and the call
succeeds. -/
theorem claim_C10 (cat : Catalogue) (doc : List (String × EValue)) :
    (∀ w cw, writer_add_document cat (some doc) true true (some w) cw (.ok ()) =
        ⟨.ok (), some w, some (marshalDoc cat doc)⟩)
    ∧ (∀ w cw, cw ingestionMemoryBudget = .ok w →
        writer_add_document cat (some doc) true true none cw (.ok ()) =
          ⟨.ok (), some w, some (marshalDoc cat doc)⟩)
    ∧ (marshalDoc cat doc = [] →
        ∀ w cw, writer_add_document cat (some doc) true true (some w) cw (.ok ()) =
          ⟨.ok (), some w, some []⟩) := by
  refine ⟨fun w cw => rfl, fun w cw h => ?_, fun hempty w cw => ?_⟩
  · simp only [writer_add_document, h]
    rfl
  · rw [show writer_add_document cat (some doc) true true (some w) cw (.ok ()) =
      ⟨.ok (), some w, some (marshalDoc cat doc)⟩ from rfl, hempty]

/-- Concrete instance of `claim_C10`: a document whose only field has an
unknown name marshals to the empty typed document, which is still added
successfully. -/
theorem claim_C10_witness :
    writer_add_document sampleCat (some [("missing", .int 1)]) true true
        (some 0) (fun _ => .ok 0) (.ok ()) = ⟨.ok (), some 0, some []⟩ := by
  exact (claim_C10 sampleCat [("missing", .int 1)]).2.2 (by decide) 0 (fun _ => .ok 0)

/-- C6: a term query on an unresolvable field fails naming that field; on
a resolvable non-text field it fails with the unsupported-type message;
on a text field it executes exactly the term query over the given field
and unanalyzed value (no fallback to a different field). -/
theorem claim_C6 (s : SearcherModel) (f v : String) (limit : Nat) :
    (lookupField s.cat f = none →
      searcher_search_term s f v limit =
        .error ("Field \x27" ++ f ++ "\x27 not found in schema"))
    ∧ (∀ ft, lookupField s.cat f = some ft → ft ≠ .str →
        searcher_search_term s f v limit =
          .error ("Field \x27" ++ f ++
            "\x27 is not a text field. Only text fields are currently supported for term queries."))
    ∧ (lookupField s.cat f = some .str →
        searcher_search_term s f v limit = collectHits s (Query.term f v) limit) := by
  refine ⟨fun h => ?_, fun ft h hne => ?_, fun h => ?_⟩
  · simp only [searcher_search_term, h]
  · cases ft with
    | str => exact absurd rfl hne
    | u64 => simp only [searcher_search_term, h]
    | i64 => simp only [searcher_search_term, h]
    | f64 => simp only [searcher_search_term, h]
    | bool => simp only [searcher_search_term, h]
    | other => simp only [searcher_search_term, h]
  · simp only [searcher_search_term, h]

/-- Concrete instance of `claim_C6` on `sampleCat`. -/
theorem claim_C6_witness :
    searcher_search_term sampleModel "missing" "hello" 10 =
      .error ("Field \x27missing\x27 not found in schema")
    ∧ searcher_search_term sampleModel "views" "hello" 10 =
      .error ("Field \x27views\x27 is not a text field. Only text fields are currently supported for term queries.")
    ∧ searcher_search_term sampleModel "title" "hello" 10 =
      collectHits sampleModel (Query.term "title" "hello") 10 := by
  have h1 := (claim_C6 sampleModel "missing" "hello" 10).1 (by decide)
  have h2 := (claim_C6 sampleModel "views" "hello" 10).2.1 .u64 (by decide) (by decide)
  have h3 := (claim_C6 sampleModel "title" "hello" 10).2.2 (by decide)
  exact ⟨by simpa using h1, by simpa using h2, h3⟩

/-- C7: a prefix query on a resolvable text field fails on an empty
prefix before any engine interaction (for every engine behaviour), and
otherwise executes the regex query whose pattern is the lower-cased,
regex-escaped prefix followed by zero or more alphanumerics. -/
theorem claim_C7 (s : SearcherModel) (f pre : String) (limit : Nat)
    (hf : lookupField s.cat f = some .str) :
    ( searcher_search_prefix s f "" limit = .error "Prefix cannot be empty")
    ∧ prefixPattern pre = regexEscape (lowerAscii pre) ++ "[a-z0-9]*"
    ∧ (pre ≠ "" → s.regexCompile (prefixPattern pre) = .ok () →
        searcher_search_prefix s f pre limit =
          collectHits s (Query.regex f (prefixPattern pre)) limit) := by
  refine ⟨?_, rfl, fun hne hc => ?_⟩
  · simp only [ searcher_search_prefix, hf, if_true, ite_true]
  · simp only [ searcher_search_prefix, hf, if_neg hne, hc]

/-- Concrete instance of `claim_C7`: the empty prefix fails, and prefix
"He+" becomes the pattern with the metacharacter escaped over the
lower-cased prefix. -/
theorem claim_C7_witness :
    searcher_search_prefix sampleModel "title" "" 10 = .error "Prefix cannot be empty"
    ∧ searcher_search_prefix sampleModel "title" "He+" 10 =
        collectHits sampleModel (Query.regex "title" (prefixPattern "He+")) 10
    ∧ prefixPattern "He+" = "he\x5c+[a-z0-9]*" := by
  have h := claim_C7 sampleModel "title" "He+" 10 (by decide)
  exact ⟨h.1, h.2.2 (by decide) rfl, by decide⟩

/-- The hit-collection tail shared by the search operations reports as
`total_hits` exactly the number of hits it returns, bounded by `limit`. -/
theorem collectHits_ok (s : SearcherModel) (q : Query) (limit : Nat)
    (r : SearchResult) (h : collectHits s q limit = .ok r) :
    r.total_hits = r.hits.length ∧ r.total_hits ≤ limit := by
  rcases hq : s.runQuery q with e | ms
  · simp only [collectHits, hq] at h
    exact Except.noConfusion h
  · simp only [collectHits, hq] at h
    injection h with h
    subst h
    refine ⟨by simp, ?_⟩
    simp only [List.length_take]
    exact min_le_left _ _

/-- A successful parsed search satisfies the `total_hits` accounting. -/
theorem searcher_search_query_ok (s : SearcherModel) (qs : String)
    (defaultFields : List String) (limit : Nat) (r : SearchResult)
    (h : searcher_search_query s qs defaultFields limit = .ok r) :
    r.total_hits = r.hits.length ∧ r.total_hits ≤ limit := by
  rcases hr : resolveDefaultFields s.cat defaultFields with e | fields
  · simp only [searcher_search_query, hr] at h
    exact Except.noConfusion h
  · simp only [searcher_search_query, hr] at h
    by_cases he : fields.isEmpty
    · rw [if_pos he] at h
      exact Except.noConfusion h
    · rw [if_neg he] at h
      rcases hp : s.parseQ qs with e | q
      · rw [hp] at h
        exact Except.noConfusion h
      · rw [hp] at h
        exact collectHits_ok s q limit r h

/-- A successful snippet search satisfies the `total_hits` accounting. -/
theorem searcher_search_with_snippets_ok (s : SearcherModel) (qs : String)
    (defaultFields snippetFields : List String) (mc limit : Nat)
    (r : SearchResult)
    (h : searcher_search_with_snippets s qs defaultFields snippetFields mc limit = .ok r) :
    r.total_hits = r.hits.length ∧ r.total_hits ≤ limit := by
  rcases hr : resolveDefaultFields s.cat defaultFields with e | fields
  · simp only [searcher_search_with_snippets, hr] at h
    exact Except.noConfusion h
  · simp only [searcher_search_with_snippets, hr] at h
    by_cases he : fields.isEmpty
    · rw [if_pos he] at h
      exact Except.noConfusion h
    · rw [if_neg he] at h
      rcases hp : s.parseQ qs with e | q
      · rw [hp] at h
        exact Except.noConfusion h
      · simp only [hp] at h
        rcases hq : s.runQuery q with e | ms
        · simp only [hq] at h
          exact Except.noConfusion h
        · simp only [hq] at h
          rcases hg : buildSnippetGens s q snippetFields with e | gens
          · simp only [hg] at h
            exact Except.noConfusion h
          · simp only [hg] at h
            injection h with h
            subst h
            refine ⟨by simp, ?_⟩
            simp only [List.length_take]
            exact min_le_left _ _

/-- A successful prefix search satisfies the `total_hits` accounting. -/
theorem searcher_search_prefix_ok (s : SearcherModel) (f pre : String)
    (limit : Nat) (r : SearchResult)
    (h : searcher_search_prefix s f pre limit = .ok r) :
    r.total_hits = r.hits.length ∧ r.total_hits ≤ limit := by
  rcases hl : lookupField s.cat f with _ | ft
  · simp only [ searcher_search_prefix, hl] at h
    exact Except.noConfusion h
  · cases ft with
    | str =>
        simp only [ searcher_search_prefix, hl] at h
        by_cases he : pre = ""
        · rw [if_pos he] at h
          exact Except.noConfusion h
        · rw [if_neg he] at h
          rcases hc : s.regexCompile (prefixPattern pre) with e | u
          · rw [hc] at h
            exact Except.noConfusion h
          · rw [hc] at h
            exact collectHits_ok s _ limit r h
    | u64 =>
        simp only [ searcher_search_prefix, hl] at h
        exact Except.noConfusion h
    | i64 =>
        simp only [ searcher_search_prefix, hl] at h
        exact Except.noConfusion h
    | f64 =>
        simp only [ searcher_search_prefix, hl] at h
        exact Except.noConfusion h
    | bool =>
        simp only [ searcher_search_prefix, hl] at h
        exact Except.noConfusion h
    | other =>
        simp only [ searcher_search_prefix, hl] at h
        exact Except.noConfusion h

/-- C8: every successful search operation reports as `total_hits` exactly
the number of hits in its `hits` list, and that number is bounded by the
caller-supplied limit (it is not an unbounded match count). -/
theorem claim_C8 (s : SearcherModel) (f v qs : String)
    (defaultFields snippetFields : List String) (mc limit : Nat)
    (r : SearchResult) :
    (searcher_search_term s f v limit = .ok r →
      r.total_hits = r.hits.length ∧ r.total_hits ≤ limit)
    ∧ (searcher_search_query s qs defaultFields limit = .ok r →
      r.total_hits = r.hits.length ∧ r.total_hits ≤ limit)
    ∧ (searcher_search_with_snippets s qs defaultFields snippetFields mc limit = .ok r →
      r.total_hits = r.hits.length ∧ r.total_hits ≤ limit)
    ∧ ( searcher_search_prefix s f v limit = .ok r →
      r.total_hits = r.hits.length ∧ r.total_hits ≤ limit) := by
  refine ⟨fun h => ?_, fun h => searcher_search_query_ok s qs defaultFields limit r h,
    fun h => searcher_search_with_snippets_ok s qs defaultFields snippetFields mc limit r h,
    fun h => searcher_search_prefix_ok s f v limit r h⟩
  rcases hl : lookupField s.cat f with _ | ft
  · simp only [searcher_search_term, hl] at h
    exact Except.noConfusion h
  · cases ft with
    | str =>
        simp only [searcher_search_term, hl] at h
        exact collectHits_ok s _ limit r h
    | u64 =>
        simp only [searcher_search_term, hl] at h
        exact Except.noConfusion h
    | i64 =>
        simp only [searcher_search_term, hl] at h
        exact Except.noConfusion h
    | f64 =>
        simp only [searcher_search_term, hl] at h
        exact Except.noConfusion h
    | bool =>
        simp only [searcher_search_term, hl] at h
        exact Except.noConfusion h
    | other =>
        simp only [searcher_search_term, hl] at h
        exact Except.noConfusion h

/-- Concrete instance of `claim_C8`: a term search over the empty sample
engine returns zero hits and reports zero. -/
theorem claim_C8_witness :
    searcher_search_term sampleModel "title" "hello" 10 =
      .ok ⟨(List.take 10 ([] : List (Int × Nat))).length, []⟩
    ∧ (⟨0, []⟩ : SearchResult).total_hits = (⟨0, []⟩ : SearchResult).hits.length
    ∧ (⟨0, []⟩ : SearchResult).total_hits ≤ 10 := by
  refine ⟨rfl, ?_, ?_⟩
  · exact ((claim_C8 sampleModel "title" "hello" "q" ["title"] [] 5 10 ⟨0, []⟩).1 rfl).1
  · exact ((claim_C8 sampleModel "title" "hello" "q" ["title"] [] 5 10 ⟨0, []⟩).1 rfl).2

/-- A catalogue field whose value list is non-empty and whose first value
is of a supported kind is projected into the hit map with that first
value. -/
theorem document_to_hit_map_mem (cat : Catalogue) (doc : StoredDoc)
    (n : String) (ft : FieldType) (v : OwnedValue) (vs : List OwnedValue)
    (hv : HitVal) (hmem : (n, ft) ∈ cat) (hd : doc n = v :: vs)
    (hc : convertOwned v = some hv) :
    (n, hv) ∈ document_to_hit_map cat doc := by
  rw [document_to_hit_map, List.mem_filterMap]
  refine ⟨(n, ft), hmem, ?_⟩
  simp [hd, hc]

/-- A catalogue field with no stored value is absent from the hit map. -/
theorem document_to_hit_map_not_mem (cat : Catalogue) (doc : StoredDoc)
    (n : String) (h : doc n = []) (hv : HitVal) :
    (n, hv) ∉ document_to_hit_map cat doc := by
  intro hmem
  rw [document_to_hit_map, List.mem_filterMap] at hmem
  obtain ⟨p, _, hfp⟩ := hmem
  rcases hh : (doc p.1).head? with _ | v
  · simp only [hh] at hfp
    exact Option.noConfusion hfp
  · simp only [hh] at hfp
    rcases hc : convertOwned v with _ | hv'
    · simp only [hc] at hfp
      exact Option.noConfusion hfp
    · simp only [hc] at hfp
      injection hfp with e
      have e1 : p.1 = n := congrArg Prod.fst e
      rw [e1, h] at hh
      simp at hh

/-- A name that is not in the catalogue never appears in the hit map. -/
theorem document_to_hit_map_lookup_none (doc : StoredDoc) (n : String) :
    ∀ cat : Catalogue, n ∉ cat.map Prod.fst →
      List.lookup n (document_to_hit_map cat doc) = none := by
  intro cat
  induction cat with
  | nil => intro _; rfl
  | cons p rest ih =>
      intro hn
      simp only [List.map_cons, List.mem_cons, not_or] at hn
      obtain ⟨hn1, hn2⟩ := hn
      rw [document_to_hit_map, List.filterMap_cons]
      rcases hh : (doc p.1).head? with _ | v
      · simp only [hh]
        exact ih hn2
      · simp only [hh]
        rcases hc : convertOwned v with _ | hv
        · simp only [hc]
          exact ih hn2
        · simp only [hc]
          have hb : (n == p.1) = false := beq_eq_false_iff_ne.mpr hn1
          simp only [List.lookup, hb]
          exact ih hn2

/-- Under unique catalogue names, looking a field up in the hit map yields
exactly the conversion of its first stored value (in particular `some` of
it when the first value is supported). -/
theorem document_to_hit_map_lookup (doc : StoredDoc) (n : String)
    (ft : FieldType) :
    ∀ cat : Catalogue, (cat.map Prod.fst).Nodup → (n, ft) ∈ cat →
      ∀ v vs, doc n = v :: vs →
        List.lookup n (document_to_hit_map cat doc) = convertOwned v := by
  intro cat
  induction cat with
  | nil => intro _ hmem; cases hmem
  | cons p rest ih =>
      intro hnd hmem v vs hd
      rw [List.map_cons, List.nodup_cons] at hnd
      obtain ⟨hp1, hnd2⟩ := hnd
      rcases List.mem_cons.mp hmem with heq | hmem2
      · have e1 : p.1 = n := by rw [← heq]
        rw [document_to_hit_map, List.filterMap_cons]
        simp only [e1, hd, List.head?_cons]
        rcases hc : convertOwned v with _ | hv
        · simp only [hc]
          rw [e1] at hp1
          exact document_to_hit_map_lookup_none doc n rest hp1
        · simp only [hc]
          simp [List.lookup]
      · have hn1 : n ∈ rest.map Prod.fst := List.mem_map.mpr ⟨(n, ft), hmem2, rfl⟩
        have hne : p.1 ≠ n := fun e => hp1 (e ▸ hn1)
        rw [document_to_hit_map, List.filterMap_cons]
        rcases hh : (doc p.1).head? with _ | v0
        · simp only [hh]
          exact ih hnd2 hmem2 v vs hd
        · simp only [hh]
          rcases hc : convertOwned v0 with _ | hv0
          · simp only [hc]
            exact ih hnd2 hmem2 v vs hd
          · simp only [hc]
            have hb : (n == p.1) = false := beq_eq_false_iff_ne.mpr (Ne.symm hne)
            simp only [List.lookup, hb]
            exact ih hnd2 hmem2 v vs hd

/-- C9: each catalogue field whose stored value list is non-empty (and of
a supported kind, the only kinds this layer ever stores) appears in the
projected hit map with exactly its first stored value; a field with no
stored value is entirely absent (no null placeholder). -/
theorem claim_C9 (cat : Catalogue) (doc : StoredDoc) :
    (∀ n ft v vs hv, (n, ft) ∈ cat → doc n = v :: vs →
        convertOwned v = some hv → (n, hv) ∈ document_to_hit_map cat doc)
    ∧ (∀ n hv, doc n = [] → (n, hv) ∉ document_to_hit_map cat doc)
    ∧ ((cat.map Prod.fst).Nodup → ∀ n ft, (n, ft) ∈ cat →
        ∀ v vs, doc n = v :: vs →
          List.lookup n (document_to_hit_map cat doc) = convertOwned v) :=
  ⟨fun n ft v vs hv hmem hd hc =>
      document_to_hit_map_mem cat doc n ft v vs hv hmem hd hc,
    fun n hv h => document_to_hit_map_not_mem cat doc n h hv,
    fun hnd n ft hmem v vs hd =>
      document_to_hit_map_lookup doc n ft cat hnd hmem v vs hd⟩

/-- A concrete stored document over `sampleCat`: a multi-valued "title"
and a valueless "views". -/
def sampleDoc : StoredDoc := fun n =>
  if n = "title" then [.str "Hello World", .str "second"] else []

/-- Concrete instance of `claim_C9`: "title" is projected with only its
first stored value and "views" is absent. -/
theorem claim_C9_witness :
    ("title", HitVal.str "Hello World") ∈ document_to_hit_map sampleCat sampleDoc
    ∧ ("views", HitVal.int 0) ∉ document_to_hit_map sampleCat sampleDoc
    ∧ List.lookup "title" (document_to_hit_map sampleCat sampleDoc) =
        some (HitVal.str "Hello World") := by
  have h := claim_C9 sampleCat sampleDoc
  refine ⟨h.1 "title" .str (.str "Hello World") [.str "second"]
      (.str "Hello World") (by decide) (by decide) rfl,
    h.2.1 "views" (HitVal.int 0) (by decide), ?_⟩
  exact h.2.2 (by decide) "title" .str (by decide) (.str "Hello World")
    [.str "second"] (by decide)

end Muninn
